import Mathlib

/-!
# Verification of the ouvidoria dashboard ingestion and filter pipeline

A shallow embedding of `app.py`: the two dataset loaders
(`carregar_dados_pesquisa`, `carregar_dados_manifestacoes`), the text
normalization they perform (Python `str.strip`, `str.replace`), the date
coercion (`pd.to_datetime(..., errors := coerce, dayfirst := True)` followed by
`.dt.to_period`), the period options offered in the sidebar, the time-window
filter applied to both data frames, and the module-level control flow
(`st.stop()` when either load returns `None`).

Tables are modelled positionally: a raw table is a header (list of column
names) plus rows (lists of raw cell strings); a missing cell behaves like a
pandas `NaN` (an absent `Option` value).  Dates are modelled by the
`dd/mm/yyyy` slash-separated shape these exports carry, parsed under the
day-first convention of the `dayfirst := True` call; any string not of that
shape coerces to `none`, exactly as `errors := coerce` demotes unparseable
values to `NaT`.
-/

/-- ASCII whitespace stripped by Python `str.strip()` (the characters that
occur in these files). -/
def isSp (c : Char) : Bool :=
  c == ' ' || c == '\t' || c == '\n' || c == '\r' || c == '\x0b' || c == '\x0c'

/-- Python `str.strip()` on a character list: drop whitespace from both ends. -/
def pyStrip (l : List Char) : List Char :=
  ((l.dropWhile isSp).reverse.dropWhile isSp).reverse

/-- Python `str.strip()` on strings, as used by `df.columns.str.strip()`. -/
def stripStr (s : String) : String :=
  ⟨pyStrip s.data⟩

/-- `str.replace("﻿", "")`: removal of every byte-order-mark character,
as in the manifestações header normalization. -/
def removeBOM (l : List Char) : List Char :=
  l.filter (fun c => c ≠ '﻿')

/-- Python `str.replace("?? ", "", regex := False)`: left-to-right,
non-overlapping removal of every occurrence of the junk substring used on the
satisfaction column. -/
def removeJunk : List Char → List Char
  | c1 :: c2 :: c3 :: rest =>
    if c1 = '?' ∧ c2 = '?' ∧ c3 = ' ' then removeJunk rest
    else c1 :: removeJunk (c2 :: c3 :: rest)
  | l => l

/-- Whether the junk substring `"?? "` occurs somewhere in the list. -/
def containsJunk : List Char → Bool
  | c1 :: c2 :: c3 :: rest =>
    (c1 = '?' ∧ c2 = '?' ∧ c3 = ' ') || containsJunk (c2 :: c3 :: rest)
  | _ => false

/-- `cleanCell` of the spec: the satisfaction-column cleaning
`x.str.replace("?? ", "", regex := False).str.strip()` from
`carregar_dados_pesquisa`. -/
def cleanCellStr (s : String) : String :=
  ⟨pyStrip (removeJunk s.data)⟩

/-- `normalizeHeader` of the spec: the manifestações header normalization
`df.columns.str.strip().str.replace(BOM, "", regex := False)`. -/
def normalizeHeaderStr (s : String) : String :=
  ⟨removeBOM (pyStrip s.data)⟩

/-- A calendar year-month key, the value of `date.to_period(M)`.  Equality is
componentwise; the chronological order is the lexicographic order on
`(year, month)`. -/
structure Period where
  year : Nat
  month : Nat
deriving DecidableEq

/-- A parsed calendar date, the value of a successful `pd.to_datetime` cell. -/
structure Date where
  year : Nat
  month : Nat
  day : Nat
deriving DecidableEq

/-- One data-frame row after loading: the derived `mês` period (absent when
the date was missing or unparseable) plus the raw cells. -/
structure Row where
  mes : Option Period
  dados : List String
deriving DecidableEq

/-- A user-visible message emitted through `st.error` / `st.warning`. -/
inductive Msg where
  | error (s : String)
  | warning (s : String)
deriving DecidableEq

/-- A raw delimited file as decoded by `pd.read_csv`: header row and data
rows, cells positional under the header. -/
structure RawTable where
  header : List String
  rows : List (List String)
deriving DecidableEq

/-- A loaded data frame: normalized column names and rows carrying the derived
`mês` column. -/
structure DataFrame where
  cols : List String
  linhas : List Row
deriving DecidableEq

/-- The numeric value of a decimal digit character, `none` otherwise. -/
def digitVal (c : Char) : Option Nat :=
  if 48 ≤ c.toNat ∧ c.toNat ≤ 57 then some (c.toNat - 48) else none

/-- Accumulating decimal parser over the remaining characters. -/
def parseNatAux (acc : Nat) : List Char → Option Nat
  | [] => some acc
  | c :: rest =>
    match digitVal c with
    | some d => parseNatAux (acc * 10 + d) rest
    | none => none

/-- Parse a nonempty all-digit character list as a natural number. -/
def parseNat (l : List Char) : Option Nat :=
  if l = [] then none else parseNatAux 0 l

/-- Prepend a character to the first group of a split result. -/
def consHead (c : Char) : List (List Char) → List (List Char)
  | [] => [[c]]
  | g :: gs => (c :: g) :: gs

/-- Split a character list on `/` separators (always a nonempty group list). -/
def splitSlash : List Char → List (List Char)
  | [] => [[]]
  | c :: rest =>
    if c = '/' then [] :: splitSlash rest
    else consHead c (splitSlash rest)

/-- Rejoin the groups produced by `splitSlash`, interposing `/`. -/
def joinSlash : List (List Char) → List Char
  | [] => []
  | [g] => g
  | g :: gs => g ++ '/' :: joinSlash gs

/-- Gregorian leap-year test. -/
def isLeap (y : Nat) : Bool :=
  y % 4 = 0 ∧ (y % 100 ≠ 0 ∨ y % 400 = 0)

/-- Number of days of a month, for calendar validity of a parsed date. -/
def daysInMonth (y m : Nat) : Nat :=
  if m = 2 then (if isLeap y then 29 else 28)
  else if m = 4 ∨ m = 6 ∨ m = 9 ∨ m = 11 then 30
  else 31

/-- Day-first parse of a `dd/mm/yyyy` string, the convention of
`pd.to_datetime(..., dayfirst := True)`: the first numeric field is the day,
the second the month, the third the year; anything else is unparseable. -/
def parseFields (a b c : List Char) : Option Date :=
  (parseNat a).bind fun d =>
    (parseNat b).bind fun m =>
      (parseNat c).bind fun y =>
        if 1 ≤ m ∧ m ≤ 12 ∧ 1 ≤ d ∧ d ≤ daysInMonth y m then some ⟨y, m, d⟩
        else none

def parseDateDayFirst (l : List Char) : Option Date :=
  match splitSlash l with
  | [a, b, c] => parseFields a b c
  | _ => none

/-- `coerceDate`: the per-cell effect of
`pd.to_datetime(column, errors := coerce, dayfirst := True)`.  A missing cell
(pandas `NaN`) and every unparseable string coerce to `none`; the call never
raises. -/
def coerceDate : Option String → Option Date
  | none => none
  | some s => parseDateDayFirst s.data

/-- `toPeriodKey`: the per-cell effect of `.dt.to_period(M)`, projecting a
date to its year-month and propagating absence (`NaT`). -/
def toPeriodKey : Option Date → Option Period
  | none => none
  | some d => some ⟨d.year, d.month⟩

/-- The column-resolver loop of `carregar_dados_pesquisa`: return the first
alias (in list order) present among the column names. -/
def resolveColuna (columns : List String) (aliases : List String) : Option String :=
  aliases.find? (fun a => columns.contains a)

/-- Look a cell up by column name in a positional row (a pandas `NaN` for a
missing cell is `none`). -/
def cellAt (cols : List String) (r : List String) (c : String) : Option String :=
  (cols.findIdx? (fun x => x == c)).bind (fun i => r.get? i)

/-- Apply the satisfaction-column cleaning to the cell at index `i` of a row. -/
def limparColuna (i : Nat) (r : List String) : List String :=
  r.mapIdx (fun j v => if j = i then cleanCellStr v else v)

/-- Whether `pat` occurs as a contiguous substring of `l`
(Python `pat in col`). -/
def containsSubAux (pat : List Char) : List Char → Bool
  | [] => pat.isPrefixOf []
  | c :: rest => pat.isPrefixOf (c :: rest) || containsSubAux pat rest

/-- Python substring containment test `sub in s` on strings. -/
def containsSub (sub s : String) : Bool :=
  containsSubAux sub.data s.data

/-- The rename loop of `carregar_dados_manifestacoes`: the first column whose
name contains "Área Responsável" is renamed to exactly that, then the loop
breaks. -/
def renameArea : List String → List String
  | [] => []
  | c :: rest =>
    if containsSub "Área Responsável" c then "Área Responsável" :: rest
    else c :: renameArea rest

/-- The ordered date-column aliases tried by `carregar_dados_pesquisa`. -/
def pesquisaDateAliases : List String :=
  ["Resposta à Pesquisa", "Resposta à pesquisa"]

/-- The satisfaction column cleaned by `carregar_dados_pesquisa`. -/
def colunaSatisfacao : String :=
  "Você está satisfeito(a) com o atendimento prestado?"

/-- `carregar_dados_pesquisa`: a missing file (`FileNotFoundError`) yields
`none` plus an error message; otherwise strip the header names, clean the
satisfaction column when present, resolve the date column among the aliases,
and derive the `mês` period per row — or, when no date alias resolves, emit a
warning and set `mês` to `none` on every row. -/
def carregar_dados_pesquisa (file : Option RawTable) :
    Option DataFrame × List Msg :=
  match file with
  | none => (none, [Msg.error "Arquivo pesquisa.csv não encontrado."])
  | some t =>
    let cols := t.header.map stripStr
    let rows1 :=
      match cols.findIdx? (fun x => x == colunaSatisfacao) with
      | some i => t.rows.map (limparColuna i)
      | none => t.rows
    match resolveColuna cols pesquisaDateAliases with
    | some c =>
      (some ⟨cols, rows1.map (fun r => ⟨toPeriodKey (coerceDate (cellAt cols r c)), r⟩)⟩,
       [])
    | none =>
      (some ⟨cols, rows1.map (fun r => ⟨none, r⟩)⟩,
       [Msg.warning "Nenhuma coluna de data encontrada no arquivo pesquisa.csv. O filtro de tempo não será aplicado a este dataset."])

/-- `carregar_dados_manifestacoes`: a missing file yields `none` plus an error
message; otherwise normalize headers (strip plus BOM removal), rename the
"Área Responsável" column, and derive `mês` from "Data de Abertura" — or,
when that column is absent, emit a warning and set `mês` to `none` on every
row. -/
def carregar_dados_manifestacoes (file : Option RawTable) :
    Option DataFrame × List Msg :=
  match file with
  | none => (none, [Msg.error "Arquivo ListaManifestacoes.csv não encontrado."])
  | some t =>
    let cols := renameArea (t.header.map normalizeHeaderStr)
    if cols.contains "Data de Abertura" then
      (some ⟨cols, t.rows.map
          (fun r => ⟨toPeriodKey (coerceDate (cellAt cols r "Data de Abertura")), r⟩)⟩,
       [])
    else
      (some ⟨cols, t.rows.map (fun r => ⟨none, r⟩)⟩,
       [Msg.warning "Coluna Data de Abertura não encontrada."])

/-- Reverse chronological comparison used to order the sidebar options:
`Period.ge a b` says `a` is the same month as `b` or later. -/
def Period.ge (a b : Period) : Prop :=
  b.year < a.year ∨ (b.year = a.year ∧ b.month ≤ a.month)

instance : DecidableRel Period.ge := fun a b =>
  decidable_of_iff (b.year < a.year ∨ (b.year = a.year ∧ b.month ≤ a.month)) Iff.rfl

instance : IsTotal Period Period.ge :=
  ⟨by intro a b; simp only [Period.ge]; omega⟩

instance : IsTrans Period Period.ge :=
  ⟨by intro a b c hab hbc; simp only [Period.ge] at *; omega⟩

/-- Strict reverse chronological order on periods ("more recent than"). -/
def Period.after (a b : Period) : Prop :=
  b.year < a.year ∨ (b.year = a.year ∧ b.month < a.month)

/-- Line 112 of `app.py`:
`sorted(df["mês"].dropna().unique(), reverse := True)` — the distinct
non-absent periods of a record set, most recent first.  The code computes this
from the manifestações frame only. -/
def availablePeriods (rows : List Row) : List Period :=
  List.insertionSort Period.ge (rows.filterMap Row.mes).dedup

/-- Modelled from the spec: `availablePeriods` over a list of record sets —
the union of all non-absent period keys across the inputs, deduplicated and
sorted descending by calendar order.  Used to compare the spec contract with
the code, which draws the options from the manifestações set alone. -/
def availablePeriodsSpec (sets : List (List Row)) : List Period :=
  List.insertionSort Period.ge ((sets.flatMap (fun rows => rows.filterMap Row.mes)).dedup)

/-- Pandas `Series.isin(sel)` on the `mês` column: an absent period is never
`isin` a list of (non-absent) periods. -/
def isinMes (sel : List Period) (m : Option Period) : Bool :=
  match m with
  | some p => sel.contains p
  | none => false

/-- Lines 137-140: the manifestações filter mask
`isin(sel) | (flag & isna)`. -/
def filtrarManifestacoes (rows : List Row) (sel : List Period) (flag : Bool) : List Row :=
  rows.filter (fun r => isinMes sel r.mes || (flag && r.mes.isNone))

/-- Lines 144-146: the pesquisa filter mask `isin(sel)` — note the flag and
the undated rows play no part here. -/
def filtrarPesquisa (rows : List Row) (sel : List Period) : List Row :=
  rows.filter (fun r => isinMes sel r.mes)

/-- Modelled from the spec: `apply(set, selection)` keeps row R iff R's period
is in `selection.periods`, or `includeUndated` is set and R's period is
absent.  Used to compare the spec contract with the code's pesquisa filter. -/
def applySpec (rows : List Row) (sel : List Period) (flag : Bool) : List Row :=
  rows.filter (fun r => isinMes sel r.mes || (flag && r.mes.isNone))

/-- Lines 109-153: the time-filter section.  When the manifestações `mês`
column is not entirely null, filter both frames (the pesquisa frame only when
it too has a usable `mês` column); otherwise both frames pass through
unfiltered. -/
def filtroTempo (man pes : List Row) (sel : List Period) (flag : Bool) :
    List Row × List Row :=
  if man.any (fun r => r.mes.isSome) then
    (filtrarManifestacoes man sel flag,
     if pes.any (fun r => r.mes.isSome) then filtrarPesquisa pes sel else pes)
  else
    (man, pes)

/-- The rendered page state the tabs read from. -/
structure Dashboard where
  manFiltrado : List Row
  pesFiltrado : List Row
  totalManifestacoes : Nat
  totalRespostas : Nat
deriving DecidableEq

/-- The metrics of the two tabs: line 207 computes "Total de Manifestações"
from the unfiltered `df_manifestacoes`, line 164 computes "Total de Respostas
no Período" from `df_pesquisa_filtrado`. -/
def renderTabs (man pes : List Row) (sel : List Period) (flag : Bool) : Dashboard :=
  let f := filtroTempo man pes sel flag
  ⟨f.1, f.2, man.length, f.2.length⟩

/-- Lines 98-102 and onward: run both loaders; if either returned `None` the
module calls `st.stop()` (modelled as `none`) and nothing is rendered,
otherwise filter and render. -/
def runDashboard (pesFile manFile : Option RawTable) (sel : List Period)
    (flag : Bool) : Option Dashboard :=
  match (carregar_dados_pesquisa pesFile).1, (carregar_dados_manifestacoes manFile).1 with
  | some dfP, some dfM => some (renderTabs dfM.linhas dfP.linhas sel flag)
  | _, _ => none

/-- The recognized no-date placeholder tokens of the spec. -/
def noDateTokens : List String :=
  ["", " ", "null", "nan", "sem data", "--", ".", ".."]

/-- Modelled from the spec: `t` is a valid textual representation of the date
`d` under the day-first convention — three slash-separated numeric fields
read as day, month and year, forming a valid calendar date. -/
def ReprDayFirst (t : String) (d : Date) : Prop :=
  ∃ a b c : List Char,
    t.data = a ++ ('/' :: (b ++ ('/' :: c))) ∧
    parseNat a = some d.day ∧ parseNat b = some d.month ∧ parseNat c = some d.year ∧
    1 ≤ d.month ∧ d.month ≤ 12 ∧ 1 ≤ d.day ∧ d.day ≤ daysInMonth d.year d.month

/-! ## Lemmas about the text normalizer -/

theorem dropWhile_self {α : Type} (p : α → Bool) (l : List α) :
    (l.dropWhile p).dropWhile p = l.dropWhile p := by
  induction l with
  | nil => rfl
  | cons c t ih =>
    by_cases h : p c
    · simp [List.dropWhile_cons, h, ih]
    · simp [List.dropWhile_cons, h]

theorem strip_head_stable (c : Char) (t : List Char) (hc : isSp c = false) :
    (((c :: t).reverse.dropWhile isSp).reverse).dropWhile isSp
      = ((c :: t).reverse.dropWhile isSp).reverse := by
  rw [List.reverse_cons, List.dropWhile_append]
  by_cases hE : (t.reverse.dropWhile isSp).isEmpty
  · simp [hE, List.dropWhile_cons, hc]
  · simp [hE, List.reverse_append, List.dropWhile_cons, hc]

theorem ldrop_rdrop (x : List Char) (h : x.dropWhile isSp = x) :
    ((x.reverse.dropWhile isSp).reverse).dropWhile isSp
      = (x.reverse.dropWhile isSp).reverse := by
  cases x with
  | nil => rfl
  | cons c t =>
    have hc : isSp c = false := by
      by_cases hb : isSp c
      · exfalso
        rw [List.dropWhile_cons, if_pos hb] at h
        have hlen := congrArg List.length h
        have hle := (List.dropWhile_sublist (l := t) isSp).length_le
        simp at hlen
        omega
      · simpa using hb
    exact strip_head_stable c t hc

theorem pyStrip_idem (l : List Char) : pyStrip (pyStrip l) = pyStrip l := by
  have h1 : (pyStrip l).dropWhile isSp = pyStrip l :=
    ldrop_rdrop (l.dropWhile isSp) (dropWhile_self isSp l)
  show (((pyStrip l).dropWhile isSp).reverse.dropWhile isSp).reverse = pyStrip l
  rw [h1]
  show ((((l.dropWhile isSp).reverse.dropWhile isSp).reverse).reverse.dropWhile isSp).reverse
    = pyStrip l
  rw [List.reverse_reverse, dropWhile_self]
  rfl

theorem removeJunk_of_noJunk (l : List Char) (h : containsJunk l = false) :
    removeJunk l = l := by
  induction l with
  | nil => rfl
  | cons c1 t ih =>
    match t with
    | [] => rfl
    | [c2] => rfl
    | c2 :: c3 :: t3 =>
      simp only [containsJunk, Bool.or_eq_false_iff, decide_eq_false_iff_not] at h
      rw [removeJunk, if_neg h.1, ih (by simpa using h.2)]

theorem removeBOM_idem (l : List Char) : removeBOM (removeBOM l) = removeBOM l := by
  simp [removeBOM, List.filter_filter]

/-- C8 counterexample: `cleanCell` is not idempotent.  Python's left-to-right
non-overlapping removal of `"?? "` applied to `"??? ? x"` removes the
occurrence starting at index 1 and thereby splices a fresh `"?? "` occurrence
together, so a second application removes more. -/
theorem cleanCell_not_idempotent :
    cleanCellStr (cleanCellStr "??? ? x") ≠ cleanCellStr "??? ? x" := by
  decide

/-- C8 (amended): `cleanCell` is idempotent on every input whose once-cleaned
value contains no further occurrence of the junk substring, and
`normalizeHeader` is idempotent on every input whose once-normalized value is
already whitespace-stripped (BOM removal can expose new edge whitespace,
junk removal can splice a new junk occurrence, so neither is idempotent in
general). -/
theorem clean_idempotent_amended (s t : String)
    (h1 : containsJunk (cleanCellStr s).data = false)
    (h2 : pyStrip (normalizeHeaderStr t).data = (normalizeHeaderStr t).data) :
    cleanCellStr (cleanCellStr s) = cleanCellStr s ∧
    normalizeHeaderStr (normalizeHeaderStr t) = normalizeHeaderStr t := by
  constructor
  · show (⟨pyStrip (removeJunk (cleanCellStr s).data)⟩ : String) = cleanCellStr s
    rw [removeJunk_of_noJunk _ h1]
    show (⟨pyStrip (pyStrip (removeJunk s.data))⟩ : String) = cleanCellStr s
    rw [pyStrip_idem]
    rfl
  · show (⟨removeBOM (pyStrip (normalizeHeaderStr t).data)⟩ : String) = normalizeHeaderStr t
    rw [h2]
    show (⟨removeBOM (removeBOM (pyStrip t.data))⟩ : String) = normalizeHeaderStr t
    rw [removeBOM_idem]
    rfl

/-- Witness for the amended C8 theorem at concrete inputs. -/
theorem clean_idempotent_amended_witness :
    cleanCellStr (cleanCellStr "?? ok") = cleanCellStr "?? ok" ∧
    normalizeHeaderStr (normalizeHeaderStr " x﻿y ") = normalizeHeaderStr " x﻿y " :=
  clean_idempotent_amended "?? ok" " x﻿y " (by decide) (by decide)

/-! ## Lemmas about the date parser -/

theorem parseNatAux_no_slash (l : List Char) :
    ∀ acc n, parseNatAux acc l = some n → ∀ x ∈ l, x ≠ '/' := by
  induction l with
  | nil => intro acc n _ x hx; simp at hx
  | cons c rest ih =>
    intro acc n h x hx
    rw [parseNatAux] at h
    cases hd : digitVal c with
    | none => rw [hd] at h; exact absurd h (by simp)
    | some d =>
      rw [hd] at h
      rcases List.mem_cons.mp hx with rfl | hx
      · unfold digitVal at hd
        by_cases hc : 48 ≤ x.toNat ∧ x.toNat ≤ 57
        · intro heq
          subst heq
          have h47 : Char.toNat '/' = 47 := rfl
          omega
        · rw [if_neg hc] at hd; exact absurd hd (by simp)
      · exact ih _ _ h x hx

theorem parseNat_no_slash (l : List Char) (n : Nat) (h : parseNat l = some n) :
    ∀ x ∈ l, x ≠ '/' := by
  unfold parseNat at h
  by_cases hl : l = []
  · subst hl; intro x hx; simp at hx
  · rw [if_neg hl] at h
    exact parseNatAux_no_slash l 0 n h

theorem splitSlash_ne_nil (l : List Char) : splitSlash l ≠ [] := by
  cases l with
  | nil => simp [splitSlash]
  | cons c rest =>
    rw [splitSlash]
    by_cases h : c = '/'
    · simp [h]
    · rw [if_neg h]
      cases hs : splitSlash rest <;> simp [consHead]

theorem joinSlash_cons_cons (g g2 : List Char) (gs : List (List Char)) :
    joinSlash (g :: g2 :: gs) = g ++ '/' :: joinSlash (g2 :: gs) := rfl

theorem joinSlash_splitSlash (l : List Char) : joinSlash (splitSlash l) = l := by
  induction l with
  | nil => rfl
  | cons c rest ih =>
    rw [splitSlash]
    by_cases h : c = '/'
    · subst h
      rw [if_pos rfl]
      cases hs : splitSlash rest with
      | nil => exact absurd hs (splitSlash_ne_nil rest)
      | cons g gs =>
        rw [joinSlash_cons_cons, List.nil_append, ← hs, ih]
    · rw [if_neg h]
      cases hs : splitSlash rest with
      | nil => exact absurd hs (splitSlash_ne_nil rest)
      | cons g gs =>
        rw [consHead]
        cases gs with
        | nil =>
          have hg : joinSlash [g] = rest := by rw [← hs]; exact ih
          rw [joinSlash] at hg
          show joinSlash [c :: g] = c :: rest
          rw [joinSlash, hg]
        | cons g2 gs2 =>
          have hg : g ++ '/' :: joinSlash (g2 :: gs2) = rest := by
            rw [← joinSlash_cons_cons, ← hs]; exact ih
          rw [joinSlash_cons_cons, List.cons_append, hg]

theorem splitSlash_noSlash (l : List Char) (h : ∀ x ∈ l, x ≠ '/') :
    splitSlash l = [l] := by
  induction l with
  | nil => rfl
  | cons c rest ih =>
    rw [splitSlash, if_neg (h c (by simp)), ih (fun x hx => h x (by simp [hx]))]
    rfl

theorem splitSlash_append (a r : List Char) (h : ∀ x ∈ a, x ≠ '/') :
    splitSlash (a ++ ('/' :: r)) = a :: splitSlash r := by
  induction a with
  | nil => simp [splitSlash]
  | cons c a2 ih =>
    rw [List.cons_append, splitSlash, if_neg (h c (by simp)),
      ih (fun x hx => h x (by simp [hx]))]
    rfl

theorem coerce_some_repr (t : String) (d : Date)
    (h : coerceDate (some t) = some d) : ReprDayFirst t d := by
  rw [coerceDate] at h
  unfold parseDateDayFirst at h
  split at h
  next a b c heq =>
    unfold parseFields at h
    cases ha : parseNat a with
    | none => rw [ha] at h; simp at h
    | some dd =>
    rw [ha] at h
    cases hb : parseNat b with
    | none => rw [hb] at h; simp at h
    | some mm =>
    rw [hb] at h
    cases hc : parseNat c with
    | none => rw [hc] at h; simp at h
    | some yy =>
    rw [hc] at h
    simp only [Option.some_bind] at h
    split at h
    next hv =>
      injection h with h
      subst h
      refine ⟨a, b, c, ?_, ha, hb, hc, hv.1, hv.2.1, hv.2.2.1, hv.2.2.2⟩
      have hj := joinSlash_splitSlash t.data
      rw [heq, joinSlash_cons_cons, joinSlash_cons_cons, joinSlash] at hj
      exact hj.symm
    next => exact absurd h (by simp)
  next => exact absurd h (by simp)

theorem availablePeriods_all_none (rows : List Row) (h : ∀ r ∈ rows, r.mes = none) :
    availablePeriods rows = [] := by
  unfold availablePeriods
  have hfm : rows.filterMap Row.mes = [] := List.filterMap_eq_nil_iff.mpr h
  rw [hfm]
  rfl

theorem find?_decomp {α : Type} (p : α → Bool) (l : List α) (a : α) :
    l.find? p = some a ↔
      ∃ l1 l2, l = l1 ++ a :: l2 ∧ p a = true ∧ ∀ b ∈ l1, p b = false := by
  induction l with
  | nil =>
    constructor
    · intro h
      exact absurd h (by simp)
    · rintro ⟨l1, l2, hdec, _, _⟩
      exact absurd hdec (by simp)
  | cons x rest ih =>
    by_cases hx : p x
    · rw [List.find?_cons_of_pos _ hx]
      constructor
      · intro h
        injection h with h
        subst h
        exact ⟨[], rest, rfl, hx, by simp⟩
      · rintro ⟨l1, l2, hdec, hpa, hfail⟩
        cases l1 with
        | nil =>
          simp only [List.nil_append, List.cons.injEq] at hdec
          rw [hdec.1]
        | cons y l1' =>
          simp only [List.cons_append, List.cons.injEq] at hdec
          have hy := hfail y (by simp)
          rw [hdec.1] at hx
          rw [hy] at hx
          exact absurd hx (by simp)
    · have hx' : p x = false := by simpa using hx
      rw [List.find?_cons_of_neg _ hx, ih]
      constructor
      · rintro ⟨l1, l2, hdec, hpa, hfail⟩
        refine ⟨x :: l1, l2, by rw [hdec]; rfl, hpa, ?_⟩
        intro b hb
        rcases List.mem_cons.mp hb with rfl | hb
        · exact hx'
        · exact hfail b hb
      · rintro ⟨l1, l2, hdec, hpa, hfail⟩
        cases l1 with
        | nil =>
          simp only [List.nil_append, List.cons.injEq] at hdec
          rw [← hdec.1] at hpa
          rw [hpa] at hx'
          exact absurd hx' (by simp)
        | cons y l1' =>
          simp only [List.cons_append, List.cons.injEq] at hdec
          exact ⟨l1', l2, hdec.2, hpa, fun b hb => hfail b (by simp [hb])⟩

/-- C4: date coercion is total.  Every recognized no-date placeholder token
coerces to absent, a missing cell coerces to absent, `toPeriodKey` propagates
absence, and every string that does not represent a valid calendar date under
the day-first convention coerces to absent — no input raises (the model is a
total function into `Option`). -/
theorem coerceDate_total_absent (s : String) (hs : s ∈ noDateTokens) :
    coerceDate (some s) = none ∧
    coerceDate none = none ∧
    toPeriodKey (none : Option Date) = none ∧
    ∀ t : String, (∀ d : Date, ¬ ReprDayFirst t d) → coerceDate (some t) = none := by
  refine ⟨?_, rfl, rfl, ?_⟩
  · simp only [noDateTokens, List.mem_cons, List.not_mem_nil, or_false] at hs
    rcases hs with rfl | rfl | rfl | rfl | rfl | rfl | rfl | rfl <;> decide
  · intro t hnone
    cases hcd : coerceDate (some t) with
    | none => rfl
    | some d => exact absurd (coerce_some_repr t d hcd) (hnone d)

/-- Witness for C4 at the placeholder token "null". -/
theorem coerceDate_total_absent_witness :
    coerceDate (some "null") = none :=
  (coerceDate_total_absent "null" (by decide)).1

/-- C6: a string of three slash-separated numeric fields that form a valid
calendar date under the day-first convention parses to the date whose day is
the first field, and its period key takes the year and month from the third
and second fields; parsing is a pure function, hence deterministic. -/
theorem dayfirst_period_correct (a b c : List Char) (dd mm yyyy : Nat)
    (ha : parseNat a = some dd) (hb : parseNat b = some mm)
    (hc : parseNat c = some yyyy)
    (hv : 1 ≤ mm ∧ mm ≤ 12 ∧ 1 ≤ dd ∧ dd ≤ daysInMonth yyyy mm) :
    coerceDate (some ⟨a ++ ('/' :: (b ++ ('/' :: c)))⟩) = some ⟨yyyy, mm, dd⟩ ∧
    toPeriodKey (coerceDate (some ⟨a ++ ('/' :: (b ++ ('/' :: c)))⟩)) = some ⟨yyyy, mm⟩ ∧
    coerceDate (some ⟨a ++ ('/' :: (b ++ ('/' :: c)))⟩)
      = coerceDate (some ⟨a ++ ('/' :: (b ++ ('/' :: c)))⟩) := by
  have hna : ∀ x ∈ a, x ≠ '/' := parseNat_no_slash a dd ha
  have hnb : ∀ x ∈ b, x ≠ '/' := parseNat_no_slash b mm hb
  have hnc : ∀ x ∈ c, x ≠ '/' := parseNat_no_slash c yyyy hc
  have hsplit : splitSlash (a ++ ('/' :: (b ++ ('/' :: c)))) = [a, b, c] := by
    rw [splitSlash_append a _ hna, splitSlash_append b _ hnb, splitSlash_noSlash c hnc]
  have hmain : coerceDate (some ⟨a ++ ('/' :: (b ++ ('/' :: c)))⟩) = some ⟨yyyy, mm, dd⟩ := by
    show parseDateDayFirst (a ++ ('/' :: (b ++ ('/' :: c)))) = some ⟨yyyy, mm, dd⟩
    unfold parseDateDayFirst
    rw [hsplit]
    show parseFields a b c = some ⟨yyyy, mm, dd⟩
    unfold parseFields
    rw [ha, hb, hc]
    simp only [Option.some_bind]
    rw [if_pos hv]
  exact ⟨hmain, by rw [hmain]; rfl, rfl⟩

/-- Witness for C6: "05/03/2024" under the day-first convention yields the
period (2024, March). -/
theorem dayfirst_period_correct_witness :
    toPeriodKey (coerceDate (some "05/03/2024")) = some ⟨2024, 3⟩ := by
  have h := dayfirst_period_correct ['0', '5'] ['0', '3'] ['2', '0', '2', '4'] 5 3 2024
    (by decide) (by decide) (by decide) (by decide)
  have heq : ("05/03/2024" : String)
      = ⟨['0', '5'] ++ ('/' :: (['0', '3'] ++ ('/' :: ['2', '0', '2', '4'])))⟩ := by decide
  rw [heq]
  exact h.2.1

/-- C7: the column resolver returns the first alias, in alias-list order,
present among the (normalized) column names; in particular resolving the
pesquisa date aliases over the columns "Resposta à pesquisa" and "Área"
returns the second alias. -/
theorem resolve_first_alias (cols aliases : List String) (a : String) :
    (resolveColuna cols aliases = some a ↔
      ∃ l1 l2, aliases = l1 ++ a :: l2 ∧ cols.contains a = true ∧
        ∀ b ∈ l1, cols.contains b = false) ∧
    resolveColuna ["Resposta à pesquisa", "Área"] pesquisaDateAliases
      = some "Resposta à pesquisa" := by
  exact ⟨find?_decomp (fun x => cols.contains x) aliases a, by decide⟩

/-- C1 counterexample: with pesquisa.csv missing and a well-formed
manifestações file, the manifestações load completes successfully, yet the
module-level guard calls `st.stop()` (modelled as the `none` outcome), so the
manifestações data is not rendered — contradicting the claim that one failing
load does not abort the whole dashboard. -/
theorem one_load_failure_stops_dashboard :
    (carregar_dados_manifestacoes (some ⟨["Data de Abertura"], [["01/02/2024"]]⟩)).1.isSome
      = true ∧
    runDashboard none (some ⟨["Data de Abertura"], [["01/02/2024"]]⟩) [] false = none := by
  decide

/-- C1 (amended): when either dataset load fails, the failure is reported as
an error message for that dataset, but the guard `st.stop()` aborts the whole
dashboard: nothing is rendered, not even the dataset whose load succeeded. -/
theorem load_failure_stops_whole_dashboard (pesFile manFile : Option RawTable)
    (sel : List Period) (flag : Bool) :
    runDashboard none manFile sel flag = none ∧
    runDashboard pesFile none sel flag = none ∧
    (carregar_dados_pesquisa none).2 = [Msg.error "Arquivo pesquisa.csv não encontrado."] ∧
    (carregar_dados_manifestacoes none).2
      = [Msg.error "Arquivo ListaManifestacoes.csv não encontrado."] := by
  refine ⟨?_, ?_, rfl, rfl⟩
  · cases h : (carregar_dados_manifestacoes manFile).1 <;>
      (unfold runDashboard; rw [h]; all_goals rfl)
  · cases h : (carregar_dados_pesquisa pesFile).1 <;>
      (unfold runDashboard; rw [h]; all_goals rfl)

/-- C2 counterexample: with the undated-inclusion flag set, an undated
pesquisa row is dropped by the code's pesquisa filter, whereas the spec's
`apply` keeps it. -/
theorem pesquisa_filter_drops_undated :
    (filtroTempo [⟨some ⟨2024, 1⟩, []⟩] [⟨none, ["a"]⟩, ⟨some ⟨2024, 1⟩, ["b"]⟩]
        [⟨2024, 1⟩] true).2
      ≠ applySpec [⟨none, ["a"]⟩, ⟨some ⟨2024, 1⟩, ["b"]⟩] [⟨2024, 1⟩] true := by
  decide

/-- C2 (amended): the manifestações filter keeps a row iff its period key is
in the selection, or the include-undated flag is set and the period key is
absent; the pesquisa filter keeps a row iff its period key is in the
selection — undated pesquisa rows are dropped regardless of the flag. -/
theorem filter_semantics_amended (rows : List Row) (sel : List Period) (flag : Bool) :
    (∀ r : Row, r ∈ filtrarManifestacoes rows sel flag ↔
       r ∈ rows ∧ ((∃ p, r.mes = some p ∧ p ∈ sel) ∨ (flag = true ∧ r.mes = none))) ∧
    (∀ r : Row, r ∈ filtrarPesquisa rows sel ↔
       r ∈ rows ∧ (∃ p, r.mes = some p ∧ p ∈ sel)) := by
  constructor
  · intro r
    rw [filtrarManifestacoes, List.mem_filter]
    refine and_congr_right fun _ => ?_
    cases hm : r.mes with
    | some p => simp [isinMes, hm, List.contains]
    | none => simp [isinMes, hm]
  · intro r
    rw [filtrarPesquisa, List.mem_filter]
    refine and_congr_right fun _ => ?_
    cases hm : r.mes with
    | some p => simp [isinMes, hm, List.contains]
    | none => simp [isinMes, hm]

/-- C3 counterexample: the options offered to the user (line 112) are computed
from the manifestações record set alone, not from the union over both loaded
record sets: with a pesquisa row dated May 2024 and a manifestações row dated
March 2024, the offered sequence misses May 2024. -/
theorem availablePeriods_ignores_pesquisa :
    availablePeriods [⟨some ⟨2024, 3⟩, []⟩]
      ≠ availablePeriodsSpec [[⟨some ⟨2024, 5⟩, []⟩], [⟨some ⟨2024, 3⟩, []⟩]] := by
  decide

/-- C3 (amended): the sequence of periods offered to the user is exactly the
set of non-absent period keys of the manifestações record set only,
deduplicated and sorted strictly descending by the underlying (year, month)
pair. -/
theorem availablePeriods_manifestacoes_only (rows : List Row) :
    (∀ p : Period, p ∈ availablePeriods rows ↔ some p ∈ rows.map Row.mes) ∧
    List.Pairwise Period.after (availablePeriods rows) := by
  constructor
  · intro p
    unfold availablePeriods
    rw [(List.perm_insertionSort _ _).mem_iff, List.mem_dedup, List.mem_filterMap]
    simp [List.mem_map]
  · have hs : List.Sorted Period.ge (availablePeriods rows) :=
      List.sorted_insertionSort _ _
    have hn : (availablePeriods rows).Nodup :=
      (List.perm_insertionSort _ _).nodup_iff.mpr (List.nodup_dedup _)
    refine (List.Pairwise.and hs hn).imp ?_
    intro a b hab
    rcases hab with ⟨hge, hne⟩
    rcases a with ⟨y1, m1⟩
    rcases b with ⟨y2, m2⟩
    simp only [Period.ge] at hge
    simp only [ne_eq, Period.mk.injEq, not_and] at hne
    simp only [Period.after]
    by_cases hy : y1 = y2
    · subst hy
      rcases hge with hlt | ⟨_, hle⟩
      · omega
      · have := hne rfl
        omega
    · rcases hge with hlt | ⟨heq, _⟩
      · omega
      · exact absurd heq.symm hy

/-- C9: when the manifestações record set has no non-absent period key at all
(date column missing or every date unparseable), the else branch of the filter
section applies no time filtering: for every selection and every state of the
include-undated flag, both filtered record sets are the full record sets. -/
theorem no_periods_no_filtering (man pes : List Row) (sel : List Period)
    (flag : Bool) (h : ∀ r ∈ man, r.mes = none) :
    filtroTempo man pes sel flag = (man, pes) := by
  have hany : man.any (fun r => r.mes.isSome) = false := by
    rw [List.any_eq_false]
    intro r hr
    rw [h r hr]
    simp
  unfold filtroTempo
  rw [hany]
  rfl

/-- Witness for C9 at a concrete undated manifestações set. -/
theorem no_periods_no_filtering_witness :
    filtroTempo [⟨none, ["m"]⟩] [⟨some ⟨2024, 1⟩, ["p"]⟩] [⟨2024, 1⟩] true
      = ([⟨none, ["m"]⟩], [⟨some ⟨2024, 1⟩, ["p"]⟩]) :=
  no_periods_no_filtering _ _ _ _ (by decide)

/-- C10: the "Total de Manifestações" metric is computed from the unfiltered
manifestações record set, so it does not depend on the selection or on the
include-undated flag and always equals the full record count, whereas the
pesquisa tab metric is the size of the filtered pesquisa set. -/
theorem total_manifestacoes_unfiltered (man pes : List Row) (s1 s2 : List Period)
    (f1 f2 : Bool) :
    (renderTabs man pes s1 f1).totalManifestacoes
      = (renderTabs man pes s2 f2).totalManifestacoes ∧
    (renderTabs man pes s1 f1).totalManifestacoes = man.length ∧
    (renderTabs man pes s1 f1).totalRespostas = ((filtroTempo man pes s1 f1).2).length :=
  ⟨rfl, rfl, rfl⟩

/-- C5: loading a table in which no date column resolves never raises: each
loader still returns a frame with all rows, every row's period key is absent,
a warning-level message is emitted, and `availablePeriods` on the returned
record set alone is the empty sequence. -/
theorem missing_date_column_loads (t : RawTable)
    (h1 : resolveColuna (t.header.map stripStr) pesquisaDateAliases = none)
    (h2 : (renameArea (t.header.map normalizeHeaderStr)).contains "Data de Abertura"
      = false) :
    (∃ dfP : DataFrame, (carregar_dados_pesquisa (some t)).1 = some dfP ∧
       dfP.linhas.length = t.rows.length ∧
       (∀ r ∈ dfP.linhas, r.mes = none) ∧
       availablePeriods dfP.linhas = []) ∧
    (carregar_dados_pesquisa (some t)).2
      = [Msg.warning "Nenhuma coluna de data encontrada no arquivo pesquisa.csv. O filtro de tempo não será aplicado a este dataset."] ∧
    (∃ dfM : DataFrame, (carregar_dados_manifestacoes (some t)).1 = some dfM ∧
       dfM.linhas.length = t.rows.length ∧
       (∀ r ∈ dfM.linhas, r.mes = none) ∧
       availablePeriods dfM.linhas = []) ∧
    (carregar_dados_manifestacoes (some t)).2
      = [Msg.warning "Coluna Data de Abertura não encontrada."] := by
  refine ⟨?_, ?_, ?_, ?_⟩
  · simp only [carregar_dados_pesquisa, h1]
    refine ⟨_, rfl, ?_, ?_, ?_⟩
    · rw [List.length_map]
      split
      · rw [List.length_map]
      · rfl
    · intro r hr
      rcases List.mem_map.mp hr with ⟨x, _, rfl⟩
      rfl
    · apply availablePeriods_all_none
      intro r hr
      rcases List.mem_map.mp hr with ⟨x, _, rfl⟩
      rfl
  · simp only [carregar_dados_pesquisa, h1]
  · simp only [carregar_dados_manifestacoes, h2, Bool.false_eq_true, if_false]
    refine ⟨_, rfl, ?_, ?_, ?_⟩
    · rw [List.length_map]
    · intro r hr
      rcases List.mem_map.mp hr with ⟨x, _, rfl⟩
      rfl
    · apply availablePeriods_all_none
      intro r hr
      rcases List.mem_map.mp hr with ⟨x, _, rfl⟩
      rfl
  · simp only [carregar_dados_manifestacoes, h2, Bool.false_eq_true, if_false]

/-- Witness for C5 at a concrete table with no date column. -/
theorem missing_date_column_loads_witness :
    (∃ dfP : DataFrame,
       (carregar_dados_pesquisa (some ⟨["Área"], [["x"]]⟩)).1 = some dfP ∧
       dfP.linhas.length = 1 ∧
       (∀ r ∈ dfP.linhas, r.mes = none) ∧
       availablePeriods dfP.linhas = []) ∧
    (carregar_dados_pesquisa (some ⟨["Área"], [["x"]]⟩)).2
      = [Msg.warning "Nenhuma coluna de data encontrada no arquivo pesquisa.csv. O filtro de tempo não será aplicado a este dataset."] ∧
    (∃ dfM : DataFrame,
       (carregar_dados_manifestacoes (some ⟨["Área"], [["x"]]⟩)).1 = some dfM ∧
       dfM.linhas.length = 1 ∧
       (∀ r ∈ dfM.linhas, r.mes = none) ∧
       availablePeriods dfM.linhas = []) ∧
    (carregar_dados_manifestacoes (some ⟨["Área"], [["x"]]⟩)).2
      = [Msg.warning "Coluna Data de Abertura não encontrada."] :=
  missing_date_column_loads ⟨["Área"], [["x"]]⟩ (by decide) (by decide)
